import Mathlib

set_option autoImplicit false

/-!
Shallow embedding of the spells-rs dice-expression interpreter, translated
from the Rust sources (`src/value.rs`, `src/outcome.rs`, `src/roll.rs`,
`src/context.rs`, `src/operator.rs`, `src/token.rs`, `src/parser.rs`,
`src/eval.rs`).

Modelling conventions:
* Rust `u32`/`u64`/`usize` quantities that never wrap in the verified paths
  are modelled as `Nat`; `i64` as `Int` (with explicit `% 2^64` where the
  source performs an `as usize` reinterpretation).
* `f64` is modelled by `ℚ`; the source's floating-point division is total,
  as is division on `ℚ`, so error behaviour coincides.
* `rand::thread_rng` is modelled by an explicit stream `g : ℕ → ℕ` of raw
  draws plus a cursor `k : ℕ`; `gen_range(lo..=hi)` becomes
  `lo + g k % (hi + 1 - lo)`, which meets the range contract for any
  nonempty range.  Functions that can draw return the advanced cursor, so
  "draws no dice" is expressed as "the cursor is unchanged and the result
  does not depend on the stream".
* Fallible Rust functions returning `Res<T> = Result<T, String>` become
  `Except String`; a Rust panic (`unwrap`/`expect`/`Vec::remove` out of
  bounds) is modelled by an outer `Option` (`none` = panic) where the
  translated code can actually reach a panic.
* Type aliases such as `BoolT`/`StrT`/`ListT` only work around Lean name
  resolution inside namespaces whose constructors shadow the builtin types;
  they are definitionally the builtin types.
-/

namespace Spells

abbrev Res (α : Type) : Type := Except String α

abbrev BoolT : Type := Bool
abbrev StrT : Type := String

def strJoin : String → List String → String := String.intercalate

/-- usize::MAX, the sentinel parent index of the global scope. -/
def UMAX : ℕ := 2 ^ 64 - 1

/-! ## `src/operator.rs` -/

inductive Operator where
  | Sentinel | Assign | Define | Discard | Add | Sub | Mul | Div | Exp
  | Neg | Keep | Adv | DisAdv | Equal | GreaterThan | LessThan
  | GreaterEqual | LessEqual | And | Or | Not
  deriving DecidableEq, Repr

def Operator.precedence : Operator → ℕ
  | .Sentinel => 0
  | .Define => 1
  | .Discard => 2
  | .Assign => 3
  | .And => 4
  | .Or => 4
  | .GreaterThan => 5
  | .LessThan => 5
  | .GreaterEqual => 5
  | .LessEqual => 5
  | .Equal => 5
  | .Add => 6
  | .Sub => 6
  | .Mul => 7
  | .Div => 7
  | .Not => 8
  | .Neg => 8
  | .Adv => 8
  | .DisAdv => 8
  | .Exp => 9
  | .Keep => 10

def Operator.left_associative : Operator → Bool
  | .Sentinel => false
  | .Assign => false
  | .Define => false
  | .Discard => true
  | .And => true
  | .Or => true
  | .Not => false
  | .Add => true
  | .Sub => true
  | .Mul => true
  | .Div => true
  | .Exp => false
  | .Neg => false
  | .Keep => true
  | .Adv => false
  | .DisAdv => false
  | .Equal => true
  | .GreaterThan => true
  | .LessThan => true
  | .GreaterEqual => true
  | .LessEqual => true

def Operator.is_binary : Operator → Bool
  | .Sentinel => false
  | .Not => false
  | .Neg => false
  | .Adv => false
  | .DisAdv => false
  | _ => true

def Operator.is_unary : Operator → Bool
  | .Not | .Neg | .Adv | .DisAdv => true
  | _ => false

/-- Embeds `Operator::is_unary_prefix` (renamed: the original suffix is unavailable here). -/
def Operator.isUnaryPre : Operator → Bool
  | .Not | .Neg => true
  | _ => false

/-- Embeds `Operator::is_unary_postfix` (renamed: the original suffix is unavailable here). -/
def Operator.isUnaryPost : Operator → Bool
  | .Adv | .DisAdv => true
  | _ => false

def Operator.greater (left right : Operator) : Bool :=
  if left.is_binary && right.is_binary then
    decide (left.precedence > right.precedence) ||
      (left.left_associative && decide (left.precedence = right.precedence))
  else if (left.is_unary && right.is_binary) || right.isUnaryPost then
    decide (left.precedence ≥ right.precedence)
  else
    false

def Operator.chars : Operator → List Char
  | .Sentinel => ['@']
  | .Assign => ['=']
  | .Define => [':', '=']
  | .Discard => [';']
  | .And => ['&']
  | .Or => ['|']
  | .Not => ['!']
  | .Add => ['+']
  | .Sub => ['-']
  | .Mul => ['*']
  | .Div => ['/']
  | .Exp => ['^']
  | .Neg => ['-']
  | .Keep => ['k']
  | .Adv => ['a']
  | .DisAdv => ['d']
  | .Equal => ['=', '=']
  | .GreaterThan => ['>']
  | .LessThan => ['<']
  | .GreaterEqual => ['>', '=']
  | .LessEqual => ['<', '=']

/-- Embeds `Operator::TOKENS`, ordered longest-to-shortest as in the source. -/
def Operator.TOKENS : List Operator :=
  [.Define, .Equal, .GreaterEqual, .LessEqual, .GreaterThan, .LessThan,
   .Assign, .Discard, .Add, .Sub, .Mul, .Div, .Exp, .And, .Or, .Not]

def Operator.ROLL_SUFFIX_TOKENS : List Operator := [.Keep, .Adv, .DisAdv]

/-! ## `src/roll.rs` -/

structure Roll where
  quantity : ℕ
  die : ℕ
  advantage : Bool
  disadvantage : Bool
  deriving DecidableEq, Repr

def Roll.new (quantity die : ℕ) : Roll := ⟨quantity, die, false, false⟩

/-- Embeds `Roll`'s `Display` impl. -/
def Roll.display (r : Roll) : String :=
  let quantity := if r.quantity = 1 then "" else toString r.quantity
  let advstr :=
    if r.advantage && !r.disadvantage then "a"
    else if r.disadvantage && !r.advantage then "d"
    else ""
  quantity ++ "d" ++ toString r.die ++ advstr

structure RollOutcome where
  roll : Roll
  rolls : List ℕ
  result : ℕ
  deriving DecidableEq, Repr

abbrev RollT : Type := Roll

/-! ## `src/value.rs` -/

/-- Embeds `Value`; the `List` variant is named `ListV` because Lean cannot declare a
constructor called `List` whose argument mentions the builtin `List`. -/
inductive Value where
  | Bool (v : BoolT)
  | Decimal (v : ℚ)
  | Natural (v : Int)
  | Outcome (v : RollOutcome)
  | Roll (v : RollT)
  | Rolls (rolls : List ℕ)
  | ListV (values : List Value)
  | String (s : StrT)
  | Empty

mutual

/-- Structural equality on `Value`, modelling the derived `PartialEq`
(`DecidableEq` cannot be derived for this nested inductive). -/
def Value.beq : Value → Value → BoolT
  | .Bool a, .Bool b => a == b
  | .Decimal a, .Decimal b => a == b
  | .Natural a, .Natural b => a == b
  | .Outcome a, .Outcome b => a == b
  | .Roll a, .Roll b => a == b
  | .Rolls a, .Rolls b => a == b
  | .ListV xs, .ListV ys => Value.beqList xs ys
  | .String a, .String b => a == b
  | .Empty, .Empty => true
  | _, _ => false

/-- Elementwise `Value.beq` on lists (the `Vec<Value>` comparison). -/
def Value.beqList : List Value → List Value → BoolT
  | [], [] => true
  | x :: xs, y :: ys => Value.beq x y && Value.beqList xs ys
  | _, _ => false

end

/-- Models the 2-decimal-place display of `f64` in `Value`'s `Display` impl
(`(v * 100.0).round() / 100.0`); numeric formatting of floats is
approximated on the `ℚ` carrier. -/
def ratDisplay (v : ℚ) : String :=
  let scaled : Int := round (v * 100)
  let sign := if scaled < 0 then "-" else ""
  let n := scaled.natAbs
  let whole := n / 100
  let frac := n % 100
  if frac = 0 then sign ++ toString whole
  else if frac % 10 = 0 then sign ++ toString whole ++ "." ++ toString (frac / 10)
  else sign ++ toString whole ++ "." ++ (if frac < 10 then "0" else "") ++ toString frac

mutual

/-- Embeds `Value`'s `Display` impl. -/
def Value.display : Value → StrT
  | .Bool v => if v then "true" else "false"
  | .Decimal v => ratDisplay v
  | .Natural v => toString v
  | .Outcome v => toString v.result
  | .Roll v => v.display
  | .Rolls rolls => "[" ++ strJoin ", " (rolls.map toString) ++ "]"
  | .ListV values => "[" ++ strJoin ", " (Value.displayList values) ++ "]"
  | .String s => "\"" ++ s.replace "\"" "\\\"" ++ "\""
  | .Empty => "()"

/-- Elementwise display of a `Vec<Value>`. -/
def Value.displayList : List Value → List StrT
  | [] => []
  | v :: rest => v.display :: Value.displayList rest

end

/-- Embeds `Value::bool`.  Draws no dice: the source never resolves a roll here. -/
def Value.bool : Value → Res BoolT
  | .Bool v => .ok v
  | .Natural n => .ok (n != 0)
  | .ListV vs => .ok (!vs.isEmpty)
  | .String s => .ok (!s.isEmpty)
  | v => .error (v.display ++ " cannot be interpreted as a bool.")

/-- Embeds `Value::roll`. -/
def Value.roll : Value → Res RollT
  | .Roll roll => .ok roll
  | _ => .error "Expected a roll but found non-roll."

/-- Contract of `rand::Rng::gen_range(lo..=hi)` for a nonempty range, fed by
one raw draw `r` from the stream. -/
def genRange (r lo hi : ℕ) : ℕ := lo + r % (hi + 1 - lo)

/-- Embeds `f64 as i64`-style truncation toward zero on the `ℚ` carrier. -/
def ratTrunc (q : ℚ) : Int := q.num.tdiv (q.den : Int)

/-- Embeds `Value::outcome`.  `g` is the raw random stream, `k` the cursor; the
returned cursor is advanced by the number of dice drawn.  NB the source
computes `sorted` (a sorted clone of `values`) but then reads
`values.last()` / `values.first()` from the *unsorted* vector; this is
translated faithfully.  For `die = 0` with a positive quantity the source
panics inside `gen_range(1..=0)` (empty range) and produces no outcome;
`genRange` does not model that panic, so theorems about resolution assume
`1 ≤ die`. -/
def Value.outcome (g : ℕ → ℕ) (k : ℕ) : Value → Res (RollOutcome × ℕ)
  | .Outcome outcome => .ok (outcome, k)
  | v =>
    match v.roll with
    | .error e => .error e
    | .ok roll =>
      -- `roll.quantity.try_into()` (u32 → usize) cannot fail on this target.
      let quantity : ℕ :=
        if roll.advantage ^^ roll.disadvantage then max roll.quantity 2 else roll.quantity
      let values : List ℕ :=
        (List.range quantity).map fun i => genRange (g (k + i)) 1 roll.die
      let _sorted : List ℕ := values.mergeSort (· ≤ ·)
      let result : ℕ :=
        if roll.advantage ^^ roll.disadvantage then
          -- Source reads from `values`, not `_sorted`; `unwrap` is safe
          -- because `quantity.max(2)`, so `getD 0` is never the default.
          if roll.advantage then values.getLast?.getD 0 else values.head?.getD 0
        else values.sum
      .ok (⟨roll, values, result⟩, k + quantity)

/-- Embeds `Value::rolls`. -/
def Value.rolls (g : ℕ → ℕ) (k : ℕ) : Value → Res (List ℕ × ℕ)
  | .Bool v => .error ((if v then "true" else "false") ++ " cannot be interpreted as rolls.")
  | .Decimal _ => .error "Decimal value cannot be interpreted as rolls."
  | .Natural _ => .error "Natural value cannot be interpreted as rolls."
  | .Roll r =>
    -- source: `Value::Outcome(self.outcome()?).rolls()`
    (match Value.outcome g k (.Roll r) with
     | .error e => .error e
     | .ok (oc, kk) => .ok (oc.rolls, kk))
  | .Rolls rolls => .ok (rolls, k)
  | .Outcome outcome => .ok (outcome.rolls, k)
  | .ListV _ => .error "List cannot be interpreted as rolls."
  | .String _ => .error "String cannot be interpreted as rolls."
  | .Empty => .error "Empty cannot be interpreted as rolls."

mutual

/-- Embeds `Value::decimal` (the `Roll` arm inlines the `Rolls` arm it delegates to:
`Self::Rolls(self.rolls()?).decimal()` sums the drawn values). -/
def Value.decimal (g : ℕ → ℕ) : ℕ → Value → Res (ℚ × ℕ)
  | k, .Decimal v => .ok (v, k)
  | k, .Natural v => .ok ((v : ℚ), k)
  | k, .Roll r =>
    (match Value.rolls g k (.Roll r) with
     | .error e => .error e
     | .ok (rolls, kk) => .ok (((rolls.sum : ℕ) : ℚ), kk))
  | k, .Rolls rolls => .ok (((rolls.sum : ℕ) : ℚ), k)
  | k, .Outcome outcome => .ok ((outcome.result : ℚ), k)
  | k, .ListV values => Value.decimalList g k values 0
  | _, .Bool v => .error ((if v then "true" else "false") ++ " cannot be interpreted as decimal.")
  | _, .String _ => .error "String cannot be interpreted as decimal."
  | _, .Empty => .error "Empty cannot be interpreted as decimal."

/-- The accumulating `for` loop of `Value::decimal`'s `List` arm. -/
def Value.decimalList (g : ℕ → ℕ) : ℕ → List Value → ℚ → Res (ℚ × ℕ)
  | k, [], total => .ok (total, k)
  | k, v :: rest, total =>
    match Value.decimal g k v with
    | .error e => .error e
    | .ok (d, k1) => Value.decimalList g k1 rest (total + d)

end

mutual

/-- Embeds `Value::natural`. -/
def Value.natural (g : ℕ → ℕ) : ℕ → Value → Res (Int × ℕ)
  | k, .Decimal v => .ok (ratTrunc v, k)
  | k, .Natural v => .ok (v, k)
  | k, .Outcome outcome => .ok ((outcome.result : Int), k)
  | k, .Roll r =>
    (match Value.outcome g k (.Roll r) with
     | .error e => .error e
     | .ok (oc, kk) => .ok ((oc.result : Int), kk))
  | k, .Rolls rolls => .ok (((rolls.sum : ℕ) : Int), k)
  | k, .ListV values => Value.naturalList g k values 0
  | _, .Bool v => .error ((if v then "true" else "false") ++ " cannot be interpreted as natural.")
  | _, .String _ => .error "String cannot be interpreted as natural."
  | _, .Empty => .error "Empty cannot be interpreted as natural."

/-- The accumulating `for` loop of `Value::natural`'s `List` arm. -/
def Value.naturalList (g : ℕ → ℕ) : ℕ → List Value → Int → Res (Int × ℕ)
  | k, [], total => .ok (total, k)
  | k, v :: rest, total =>
    match Value.natural g k v with
    | .error e => .error e
    | .ok (n, k1) => Value.naturalList g k1 rest (total + n)

end

/-! ## `src/outcome.rs` -/

structure Outcome where
  value : Value
  rolls : List RollOutcome

def Outcome.new (value : Value) : Outcome := ⟨value, []⟩

/-- Embeds `Outcome::resolve_for`.  `f` is the value-level coercion (itself given
the cursor because some coercions draw). -/
def Outcome.resolveFor {α : Type} (g : ℕ → ℕ) (k : ℕ) (o : Outcome)
    (f : ℕ → Value → Res (α × ℕ)) : Res ((Outcome × α) × ℕ) :=
  match o.value with
  | .Roll r =>
    match Value.outcome g k (.Roll r) with
    | .error e => .error e
    | .ok (outcome, k1) =>
      let o' : Outcome := ⟨.Outcome outcome, o.rolls ++ [outcome]⟩
      match f k1 o'.value with
      | .error e => .error e
      | .ok (a, k2) => .ok ((o', a), k2)
  | _ =>
    match f k o.value with
    | .error e => .error e
    | .ok (a, k2) => .ok ((o, a), k2)

/-- Embeds `Outcome::rolls` (named `rollsVal` because `rolls` is the log field). -/
def Outcome.rollsVal (g : ℕ → ℕ) (k : ℕ) (o : Outcome) : Res ((Outcome × List ℕ) × ℕ) :=
  o.resolveFor g k (fun k v => Value.rolls g k v)

/-- Embeds `Outcome::natural`. -/
def Outcome.natural (g : ℕ → ℕ) (k : ℕ) (o : Outcome) : Res ((Outcome × Int) × ℕ) :=
  o.resolveFor g k (fun k v => Value.natural g k v)

/-- Embeds `Outcome::decimal`. -/
def Outcome.decimal (g : ℕ → ℕ) (k : ℕ) (o : Outcome) : Res ((Outcome × ℚ) × ℕ) :=
  o.resolveFor g k (fun k v => Value.decimal g k v)

/-- Embeds `Outcome::bool` (`Value::bool` never draws, so the cursor is threaded
through unchanged). -/
def Outcome.bool (g : ℕ → ℕ) (k : ℕ) (o : Outcome) : Res ((Outcome × Bool) × ℕ) :=
  o.resolveFor g k (fun k v =>
    match Value.bool v with
    | .error e => .error e
    | .ok b => .ok (b, k))

/-- Embeds `Outcome::arithmetic`. -/
def Outcome.arithmetic (g : ℕ → ℕ) (k : ℕ) (o other : Outcome) (f : ℚ → ℚ → ℚ) :
    Res (Outcome × ℕ) :=
  match Outcome.decimal g k o with
  | .error e => .error e
  | .ok ((this, lhs), k1) =>
    match Outcome.decimal g k1 other with
    | .error e => .error e
    | .ok ((that, rhs), k2) =>
      .ok (⟨.Decimal (f lhs rhs), this.rolls ++ that.rolls⟩, k2)

/-- Embeds `Outcome::div` — no division-by-zero guard; division on the carrier is
total, like `f64` division. -/
def Outcome.div (g : ℕ → ℕ) (k : ℕ) (o other : Outcome) : Res (Outcome × ℕ) :=
  o.arithmetic g k other (· / ·)

/-- Embeds `Outcome::equal`.  Translated from a body that never resolves rolls:
it takes no random stream and no cursor. -/
def Outcome.equal (o other : Outcome) : Res Outcome :=
  .ok ⟨.Bool (Value.beq o.value other.value), o.rolls ++ other.rolls⟩

/-- The inner `for` scan of `Outcome::keep`: updates `smallest` with the
index/value pairs of `values` (strictly-smaller wins, earliest index on
ties).  NB the caller does *not* reset `smallest` between passes; that is
faithful to the source. -/
def scanSmallest (values : List ℕ) (smallest : Option (ℕ × ℕ)) : Option (ℕ × ℕ) :=
  values.enum.foldl
    (fun sm iv =>
      match sm with
      | none => some iv
      | some (j, sv) => if sv > iv.2 then some iv else some (j, sv))
    smallest

/-- The `while to_remove > 0` loop of `Outcome::keep`.  `none` models the
panic of `Vec::remove` on an out-of-range index (reachable because the
stale `smallest` can hold an index past the shrunk vector's end). -/
def keepLoop : ℕ → List ℕ → Option (ℕ × ℕ) → Option (List ℕ)
  | 0, values, _ => some values
  | n + 1, values, smallest =>
    let smallest := scanSmallest values smallest
    match smallest with
    | some (i, _) =>
      if i < values.length then keepLoop n (values.eraseIdx i) smallest
      else none
    | none => keepLoop n values smallest

/-- Embeds `Outcome::keep`.  The outer `Option` is `none` only on the
`Vec::remove` panic; `some` carries the function's normal `Res` result. -/
def Outcome.keep (g : ℕ → ℕ) (k : ℕ) (o rhs : Outcome) : Option (Res (Outcome × ℕ)) :=
  match Outcome.rollsVal g k o with
  | .error e => some (.error e)
  | .ok ((this, values), k1) =>
    match Outcome.natural g k1 rhs with
    | .error e => some (.error e)
    | .ok ((that, keepv), k2) =>
      let logs := this.rolls ++ that.rolls
      -- `keep as usize`: two's-complement reinterpretation of the i64.
      let keepN : ℕ := (keepv % (2 ^ 64 : Int)).toNat
      if keepN < values.length then
        match keepLoop (values.length - keepN) values none with
        | some kept => some (.ok (⟨.Rolls kept, logs⟩, k2))
        | none => none
      else
        some (.ok (⟨.Rolls values, logs⟩, k2))

/-- Embeds `Outcome::nat`. -/
def Outcome.nat (value : Int) : Outcome := Outcome.new (.Natural value)

/-! ## `src/ast.rs` -/

abbrev ValueT : Type := Value

/-- Embeds `Node`; arena children are `usize` indices. -/
inductive Node where
  | Value (val : ValueT)
  | Identifier (name : StrT)
  | List (values : List ℕ)
  | Call (name : StrT) (args : List ℕ)
  | Binary (lhs : ℕ) (op : Operator) (rhs : ℕ)
  | Unary (arg : ℕ) (op : Operator)
  | If (cond : ℕ) (thenb : ℕ) (elseb : Option ℕ)

/-- Embeds `Ast(Vec<Node>)`. -/
structure Ast where
  nodes : List Node

def Ast.new : Ast := ⟨[]⟩

/-- Embeds `Ast::add`: push a node, return its index. -/
def Ast.add (a : Ast) (expr : Node) : ℕ × Ast :=
  (a.nodes.length, ⟨a.nodes ++ [expr]⟩)

/-- Embeds `Ast::get`. -/
def Ast.get (a : Ast) (expr : ℕ) : Option Node := a.nodes[expr]?

/-- Embeds `Ast::start`. -/
def Ast.start (a : Ast) : ℕ :=
  if a.nodes.isEmpty then 0 else a.nodes.length - 1

/-! ## `src/context.rs` -/

/-- Embeds `Function` in `context.rs` (named `Func`: `Function` would shadow the
root namespace of the same name). -/
structure Func where
  name : String
  body : Ast
  parameters : List String
  id : ℕ

/-- Embeds `ScopeObject`. -/
inductive ScopeObject where
  | Value (v : ValueT)
  | Function (f : Func)
  | Child (idx : ℕ)

/-- The `HashMap<String, ScopeObject>` of a scope, modelled as an
association list; `insert` overwrites in place or appends. -/
def lookupA : List (String × ScopeObject) → String → Option ScopeObject
  | [], _ => none
  | (k, v) :: rest, key => if k = key then some v else lookupA rest key

def containsA (m : List (String × ScopeObject)) (key : String) : Bool :=
  m.any (fun kv => kv.1 = key)

def insertA : List (String × ScopeObject) → String → ScopeObject → List (String × ScopeObject)
  | [], key, v => [(key, v)]
  | (k, w) :: rest, key, v =>
    if k = key then (k, v) :: rest else (k, w) :: insertA rest key v

structure Scope where
  parent : ℕ
  objects : List (String × ScopeObject)

def Scope.new (parent : ℕ) : Scope := ⟨parent, []⟩

structure Context where
  scopes : List Scope

/-- Embeds `Context::GLOBAL_SCOPE`. -/
def Context.GLOBAL_SCOPE : ℕ := 0

/-- Embeds `Context::new` / `Context::empty`. -/
def Context.empty : Context := ⟨[Scope.new UMAX]⟩

/-- The `while idx != usize::MAX` loop of `Context::scope_stack`; the fuel
only rules out divergence on cyclic parent chains (on which the source
itself loops forever) and is chosen large enough for every acyclic chain. -/
def Context.scopeStackGo (cx : Context) : ℕ → ℕ → List ℕ
  | 0, _ => []
  | fuel + 1, idx =>
    if idx = UMAX then []
    else
      match cx.scopes[idx]? with
      | some scope => idx :: cx.scopeStackGo fuel scope.parent
      | none => []

/-- Embeds `Context::scope_stack`. -/
def Context.scopeStack (cx : Context) (idx : ℕ) : List ℕ :=
  cx.scopeStackGo (cx.scopes.length + 1) idx

/-- The recursion of `Context::lookup`, fuelled like `scope_stack`. -/
def Context.lookupGo (cx : Context) (name : String) : ℕ → ℕ → Option ScopeObject
  | 0, _ => none
  | fuel + 1, scope =>
    match cx.scopes[scope]? with
    | none => none
    | some sc =>
      match lookupA sc.objects name with
      | some obj => some obj
      | none => cx.lookupGo name fuel sc.parent

/-- Embeds `Context::lookup`. -/
def Context.lookup (cx : Context) (scope : ℕ) (name : String) : Option ScopeObject :=
  cx.lookupGo name (cx.scopes.length + 1) scope

/-- Embeds `Context::get_variable`. -/
def Context.getVariable (cx : Context) (scope : ℕ) (name : String) : Option Value :=
  match cx.lookup scope name with
  | some (.Value val) => some val
  | _ => none

/-- Embeds `Context::child_scope`: push a new scope whose parent is the argument,
return its index. -/
def Context.childScope (cx : Context) (parent : ℕ) : ℕ × Context :=
  (cx.scopes.length, ⟨cx.scopes ++ [Scope.new parent]⟩)

/-- Embeds `Context::set_variable`.  NB the loop condition in the source reads
`self.scopes.get_mut(scope)` — the *originating* `scope` parameter, which
shadows the loop's `idx` — so the containment test never inspects an
ancestor; this is translated faithfully.  `none` models the `.expect`
panic when `set_scope` is out of range. -/
def Context.setVariable (cx : Context) (scope : ℕ) (name : String) (value : Value) :
    Option Context :=
  let set_scope :=
    ((cx.scopeStack scope).find? fun _idx =>
      match cx.scopes[scope]? with
      | some sc => containsA sc.objects name
      | none => false).getD scope
  match cx.scopes[set_scope]? with
  | some sc =>
    some ⟨cx.scopes.set set_scope ⟨sc.parent, insertA sc.objects name (.Value value)⟩⟩
  | none => none

/-- Embeds `Context::get_function`. -/
def Context.getFunction (cx : Context) (scope : ℕ) (name : String) : Option Func :=
  match cx.lookup scope name with
  | some (.Function func) => some func
  | _ => none

/-- Embeds `Context::define_function`; `none` models the `.expect` panic. -/
def Context.defineFunction (cx : Context) (scope : ℕ) (name : String) (body : Ast)
    (parameters : List String) (id : ℕ) : Option Context :=
  match cx.scopes[scope]? with
  | some sc =>
    some ⟨cx.scopes.set scope
      ⟨sc.parent, insertA sc.objects name (.Function ⟨name, body, parameters, id⟩)⟩⟩
  | none => none

/-- Embeds `check_argument_count` from `src/eval.rs`. -/
def checkArgumentCount (name : String) (count : ℕ) (args : List Value) : Res Unit :=
  if count ≠ args.length then
    .error ("Incorrect number of arguments: " ++ name ++ " expects " ++ toString count ++ ".")
  else
    .ok ()

/-- The parameter-binding `for` loop of `Context::call`. -/
def bindParams : Context → ℕ → List (String × Value) → Option Context
  | cx, _, [] => some cx
  | cx, funcScope, (name, value) :: rest =>
    match cx.setVariable funcScope name value with
    | some cx1 => bindParams cx1 funcScope rest
    | none => none

/-- Embeds `Context::call`.  The evaluator for function bodies and the builtin
dispatcher live in modules whose current sources are not part of the
crate snapshot, so they are passed in as parameters `ev` and `builtins`;
every property proved below holds for all instantiations.  `none` models
a panic inside `set_variable`. -/
def Context.call (ev : Ast → Context → ℕ → Res Outcome × Context)
    (builtins : String → List Value → Res Outcome)
    (cx : Context) (scope : ℕ) (name : String) (args : List Value) :
    Option (Res Outcome × Context) :=
  match cx.getFunction scope name with
  | some function =>
    let fs := cx.childScope scope
    let funcScope := fs.1
    let cx1 := fs.2
    match checkArgumentCount name function.parameters.length args with
    | .error e => some (.error e, cx1)
    | .ok _ =>
      match bindParams cx1 funcScope (function.parameters.zip args) with
      | none => none
      | some cx2 =>
        let r := ev function.body cx2 funcScope
        -- `self.scopes.pop(); ret`
        some (r.1, ⟨r.2.scopes.dropLast⟩)
  | none => some (builtins name args, cx)

/-! ## `src/token.rs` -/

abbrev OperatorT : Type := Operator

/-- Embeds `Tok`; `Decimal` carries the `ℚ` stand-in for `f64`. -/
inductive Tok where
  | Identifier (name : StrT)
  | Natural (n : ℕ)
  | Decimal (v : ℚ)
  | Roll (q : ℕ) (d : ℕ)
  | Operator (op : OperatorT)
  | String (val : StrT)
  | ParenOpen
  | ParenClose
  | BracketOpen
  | BracketClose
  | Comma
  deriving DecidableEq, Repr

/-- Embeds `Tok::identifier`. -/
def Tok.identifier (s : StrT) : Tok := .Identifier s

structure Token where
  tok : Tok
  line : ℕ
  col : ℕ
  index : ℕ
  len : ℕ
  deriving DecidableEq, Repr

def Token.new (tok : Tok) (line col index len : ℕ) : Token := ⟨tok, line, col, index, len⟩

def Token.inner (t : Token) : Tok := t.tok

structure TokenList where
  text : List Char
  tokens : List Token
  deriving DecidableEq, Repr

def TokenList.as_slice (tl : TokenList) : List Token := tl.tokens

def TokenList.is_empty (tl : TokenList) : Bool := tl.tokens.isEmpty

/-- Embeds `TokenList::range_to_string`; `Vec::get(range)` yields `None` when the
range end exceeds the text, producing the empty string. -/
def TokenList.rangeToString (tl : TokenList) (start stop : ℕ) : String :=
  if stop ≤ tl.text.length then String.mk ((tl.text.drop start).take (stop - start))
  else ""

/-- The backward scan of `TokenList::line_of` for the line start. -/
def lineStartFrom (text : List Char) : ℕ → ℕ
  | 0 =>
    match text[0]? with
    | some c => if c = '\n' then 1 else 0
    | none => 0
  | j + 1 =>
    match text[j + 1]? with
    | some c => if c = '\n' then j + 2 else lineStartFrom text j
    | none => 0

/-- The forward scan of `TokenList::line_of` for the line end. -/
def lineEndGo (text : List Char) : ℕ → ℕ → ℕ
  | 0, i => i
  | fuel + 1, i =>
    match text[i]? with
    | none => i
    | some c => if c = '\n' then i else lineEndGo text fuel (i + 1)

/-- Embeds `TokenList::line_of`. -/
def TokenList.lineOf (tl : TokenList) (token : Token) : String :=
  tl.rangeToString (lineStartFrom tl.text token.index)
    (lineEndGo tl.text (tl.text.length + 1) (token.index + token.len))

/-- Embeds `TokenList::text_of`. -/
def TokenList.textOf (tl : TokenList) (token : Token) : String :=
  tl.rangeToString token.index (token.index + token.len)

/-- Embeds `TokenList::context`. -/
def TokenList.context (tl : TokenList) (token : Token) : String :=
  let line := tl.lineOf token
  let text := tl.textOf token
  let spaces := String.mk (List.replicate (token.col - 1) ' ')
  let arrows := String.mk (List.replicate text.length '^')
  line ++ "\n" ++ spaces ++ arrows

/-- Embeds `TokenList::truncate` (a `split_off`, keeping the tail). -/
def TokenList.truncate (tl : TokenList) (newStart : ℕ) : TokenList :=
  ⟨tl.text, tl.tokens.drop newStart⟩

/-- The loop of `read_string`; `escaped` is the escape flag, `i` counts
consumed characters (starting after the opening quote). -/
def readStringGo : List Char → String → Bool → ℕ → Res (ℕ × Tok)
  | [], _, _, _ => .error "Unterminated string."
  | c :: rest, s, escaped, i =>
    if c = '\\' then
      if escaped then readStringGo rest (s ++ "\\") false (i + 1)
      else readStringGo rest s true (i + 1)
    else if c = '"' then
      if escaped then readStringGo rest (s ++ "\"") false (i + 1)
      else .ok (i + 1, .String s)
    else if c = 'n' && escaped then readStringGo rest (s ++ "\n") false (i + 1)
    else if c = 't' && escaped then readStringGo rest (s ++ "\t") false (i + 1)
    else if c = '\n' then .error "Strings must be single line."
    else readStringGo rest (s.push c) escaped (i + 1)

/-- Embeds `read_string` (the leading `"` is consumed by the caller's slice). -/
def readString (input : List Char) : Res (ℕ × Tok) :=
  readStringGo (input.drop 1) "" false 1

/-- Embeds `str::parse::<u64>` on an accumulated digit string. -/
def parseU64 (s : List Char) : Res ℕ :=
  if s.isEmpty then .error "cannot parse integer from empty string"
  else if s.all Char.isDigit then
    let v := s.foldl (fun acc c => acc * 10 + (c.toNat - '0'.toNat)) 0
    if v < 2 ^ 64 then .ok v else .error "number too large to fit in target type"
  else .error "invalid digit found in string"

/-- Embeds `str::parse::<f64>` on an accumulated literal with exactly one dot,
modelled exactly on `ℚ` (binary rounding of the real parse is abstracted). -/
def parseDec (s : List Char) : Res ℚ :=
  let intPart := s.takeWhile (· ≠ '.')
  let fracPart := (s.dropWhile (· ≠ '.')).drop 1
  if (intPart ++ fracPart).isEmpty then .error "invalid float literal"
  else if (intPart ++ fracPart).all Char.isDigit then
    let iv : ℕ := intPart.foldl (fun acc c => acc * 10 + (c.toNat - '0'.toNat)) 0
    let fv : ℕ := fracPart.foldl (fun acc c => acc * 10 + (c.toNat - '0'.toNat)) 0
    .ok ((iv : ℚ) + (fv : ℚ) / ((10 : ℚ) ^ fracPart.length))
  else .error "invalid float literal"

/-- The accumulation loop of `read_number`: collects digits, at most one
`.` (decimal) or one `d` (roll); a second `d` or a trailing non-digit
stops the scan.  Returns the accumulated literal and the flags. -/
def readNumberGo : List Char → List Char → Bool → Bool → Res (List Char × Bool × Bool)
  | [], s, dec, roll => .ok (s, dec, roll)
  | c :: rest, s, dec, roll =>
    if c = '.' then
      if dec || roll then .error ("Invalid literal: " ++ String.mk (s ++ ['.']))
      else readNumberGo rest (s ++ ['.']) true roll
    else if c = 'd' then
      if roll then .ok (s, dec, roll)
      else if dec then .error ("Invalid literal: " ++ String.mk s)
      else readNumberGo rest (s ++ ['d']) dec true
    else if c.isDigit then readNumberGo rest (s ++ [c]) dec roll
    else .ok (s, dec, roll)

/-- Embeds `str::split_once('d')`. -/
def splitOnceD (s : List Char) : Option (List Char × List Char) :=
  if s.contains 'd' then some (s.takeWhile (· ≠ 'd'), (s.dropWhile (· ≠ 'd')).drop 1)
  else none

/-- Embeds `read_number`. -/
def readNumber (input : List Char) : Res (ℕ × Tok) :=
  match readNumberGo input [] false false with
  | .error e => .error e
  | .ok (s, is_decimal, is_roll) =>
    if is_decimal then
      match parseDec s with
      | .error e => .error e
      | .ok v => .ok (s.length, .Decimal v)
    else if is_roll then
      match splitOnceD s with
      | some (q, d) =>
        match (if q.isEmpty then .ok 1 else parseU64 q : Res ℕ) with
        | .error e => .error e
        | .ok qv =>
          match parseU64 d with
          | .error e => .error e
          | .ok dv => .ok (s.length, .Roll qv dv)
      | none => .error ("Failed to parse roll literal: " ++ String.mk s)
    else
      match parseU64 s with
      | .error e => .error e
      | .ok v => .ok (s.length, .Natural v)

/-- The accumulation loop of `read_identifier`. -/
def readIdentifierGo : List Char → List Char → List Char
  | [], s => s
  | c :: rest, s =>
    if c = '_' || c.isAlpha || (!s.isEmpty && c.isDigit) then readIdentifierGo rest (s ++ [c])
    else s

/-- Embeds `read_identifier`. -/
def readIdentifier (input : List Char) : Res (ℕ × Tok) :=
  let s := readIdentifierGo input []
  .ok (s.length, .Identifier (String.mk s))

/-- Embeds `read_token`. -/
def readToken (input : List Char) : Res (ℕ × Tok) :=
  match Operator.TOKENS.find? (fun op => op.chars.isPrefixOf input) with
  | some op => .ok (op.chars.length, .Operator op)
  | none =>
    match input[0]? with
    | none => .error "Input ended unexpectedly."
    | some ',' => .ok (1, .Comma)
    | some '(' => .ok (1, .ParenOpen)
    | some ')' => .ok (1, .ParenClose)
    | some '[' => .ok (1, .BracketOpen)
    | some ']' => .ok (1, .BracketClose)
    | some '"' => readString input
    | some '.' => readNumber input
    | some c =>
      if c.isDigit then readNumber input
      else if c = '_' then readIdentifier input
      else if c = 'd' then
        match readNumber input with
        | .ok r => .ok r
        | .error _ => readIdentifier input
      else if c.isAlpha then readIdentifier input
      else .error (String.mk [c] ++ " unexpected")

/-- Embeds `read_comment`. -/
def readComment (input : List Char) : ℕ :=
  match input.findIdx? (· = '\n') with
  | some i => i + 1
  | none => input.length

/-- Embeds `maybe_read_postfix_roll_op`. -/
def maybeReadPostfixRollOp (input : List Char) : Res (ℕ × Tok) :=
  let is_operator :=
    match input[1]? with
    | some c => if !c.isAlpha && c ≠ '_' then true else decide (input.length = 1)
    | none => decide (input.length = 1)
  if is_operator then
    match input[0]? with
    | some c =>
      match Operator.ROLL_SUFFIX_TOKENS.find? (fun op => op.chars = [c]) with
      | some op => .ok (1, .Operator op)
      | none => readToken input
    | none => readToken input
  else readToken input

/-- Does the last emitted token hold a `Tok::Roll`? (the `let`-chain guard
of the tokeniser's postfix arm). -/
def lastIsRoll (tokens : List Token) : Bool :=
  match tokens.getLast? with
  | some t =>
    match t.tok with
    | .Roll _ _ => true
    | _ => false
  | none => false

/-- The `while !input.is_empty()` loop of `tokenise`.  One character is
consumed per iteration at minimum, so `fuel = input.length + 1` always
suffices; the out-of-fuel error is unreachable from `tokenise`. -/
def tokeniseGo : ℕ → List Char → List Token → ℕ → ℕ → ℕ → Bool → Res (List Token)
  | _, [], tokens, _, _, _, _ => .ok tokens
  | 0, _ :: _, _, _, _, _, _ => .error "tokenise out of fuel"
  | fuel + 1, c :: rest, tokens, index, line, col, wst =>
    if c = ' ' || c = '\t' then
      tokeniseGo fuel rest tokens (index + 1) line (col + 1) true
    else if c = '\n' then
      tokeniseGo fuel rest tokens (index + 1) (line + 1) 1 true
    else if c = '#' then
      let len := readComment (c :: rest)
      tokeniseGo fuel ((c :: rest).drop len) tokens (index + len) (line + 1) 1 true
    else if (c = 'a' || c = 'd' || c = 'k') && !wst && lastIsRoll tokens then
      match maybeReadPostfixRollOp (c :: rest) with
      | .error e => .error e
      | .ok (len, tok) =>
        tokeniseGo fuel ((c :: rest).drop len)
          (tokens ++ [Token.new tok line col index len]) (index + len) line (col + len) false
    else
      match readToken (c :: rest) with
      | .error e => .error e
      | .ok (len, tok) =>
        tokeniseGo fuel ((c :: rest).drop len)
          (tokens ++ [Token.new tok line col index len]) (index + len) line (col + len) false

/-- Embeds `tokenise`. -/
def tokenise (input : List Char) : Res TokenList :=
  match tokeniseGo (input.length + 1) input [] 0 1 1 false with
  | .error e => .error e
  | .ok tokens => .ok ⟨input, tokens⟩

/-! ## `src/parser.rs` -/

/-- Embeds `Operator::str`. -/
def Operator.str (op : Operator) : String := String.mk op.chars

/-- Embeds `u64 as i64`: two's-complement reinterpretation (from `Tok::Natural(n)`
to `Value::Natural(*n as i64)`). -/
def intOfU64 (n : ℕ) : Int :=
  if n < 2 ^ 63 then (n : Int) else (n : Int) - 2 ^ 64

structure Parser where
  source : TokenList
  input : List Token
  operators : List Operator
  operands : List ℕ
  operators_scopes : List (List Operator)
  operands_scopes : List (List ℕ)
  ast : Ast

def Parser.new (input : TokenList) : Parser :=
  ⟨input, input.tokens, [], [], [], [], Ast.new⟩

/-- Embeds `Parser::token_err` (sans the generic return: it yields the message). -/
def Parser.tokenErr (p : Parser) (token : Token) (message : String) : String :=
  p.source.context token ++ "\n" ++ message

def Parser.peek (p : Parser) : Option Token := p.input.head?

def Parser.next_is (p : Parser) (tok : Tok) : Bool :=
  match p.peek with
  | some token => decide (token.tok = tok)
  | none => false

/-- Embeds `Parser::next`. -/
def Parser.nextP (p : Parser) : Res Token × Parser :=
  match p.input with
  | [] => (.error "Input ended unexpectedly.", p)
  | t :: rest => (.ok t, { p with input := rest })

/-- Embeds `Parser::expect`.  The `{:?}` debug formatting of the source's message
is rendered with `reprStr`. -/
def Parser.expectP (p : Parser) (tok : Tok) : Res Unit × Parser :=
  match p.nextP with
  | (.error e, p) => (.error e, p)
  | (.ok actual, p) =>
    if actual.tok = tok then (.ok (), p)
    else
      (.error (p.tokenErr actual
        ("Expected " ++ reprStr tok ++ " but found " ++ reprStr actual.tok ++ ".")), p)

/-- Embeds `Parser::pop_operand`. -/
def Parser.popOperandP (p : Parser) : Res ℕ × Parser :=
  match p.operands with
  | operand :: rest => (.ok operand, { p with operands := rest })
  | [] => (.error "Attempted to pop empty operand stack.", p)

/-- Embeds `Parser::push_operand`. -/
def Parser.pushOperandP (p : Parser) (operand : Node) : ℕ × Parser :=
  let r := p.ast.add operand
  (r.1, { p with ast := r.2, operands := r.1 :: p.operands })

/-- Embeds `Parser::pop_operator`.  The operator is popped *before* any failure on
the operand stack, as in the source (`&mut self` mutations persist). -/
def Parser.popOperatorP (p : Parser) : Res ℕ × Parser :=
  match p.operators with
  | [] => (.error "Attempted to pop empty operator stack.", p)
  | op :: rest =>
    let p := { p with operators := rest }
    if op.is_binary then
      match p.popOperandP with
      | (.error e, p) => (.error e, p)
      | (.ok rhs, p) =>
        match p.popOperandP with
        | (.error e, p) => (.error e, p)
        | (.ok lhs, p) =>
          let r := p.pushOperandP (.Binary lhs op rhs)
          (.ok r.1, r.2)
    else if op.is_unary then
      match p.popOperandP with
      | (.error e, p) => (.error e, p)
      | (.ok arg, p) =>
        let r := p.pushOperandP (.Unary arg op)
        (.ok r.1, r.2)
    else (.error "Attempted to pop Sentinel operator.", p)

/-- The `while` loop of `Parser::push_operator`; each iteration pops the
top operator (discarding errors, as the source's `.ok()` does), so
`operators.length + 1` fuel always suffices. -/
def Parser.pushOperatorGo : ℕ → Operator → Parser → Parser
  | 0, _, p => p
  | fuel + 1, op, p =>
    match p.operators.head? with
    | some top =>
      if Operator.greater top op then
        Parser.pushOperatorGo fuel op (p.popOperatorP).2
      else p
    | none => p

/-- Embeds `Parser::push_operator`. -/
def Parser.pushOperator (p : Parser) (op : Operator) : Parser :=
  let p := Parser.pushOperatorGo (p.operators.length + 1) op p
  { p with operators := op :: p.operators }

/-- The trailing `while` of `Parser::expr`: pop operators down to the
nearest `Sentinel` (or an empty stack), threading the produced node id. -/
def Parser.popUntilSentinelGo : ℕ → ℕ → Parser → Res ℕ × Parser
  | 0, _, p => (.error "parser out of fuel", p)
  | fuel + 1, id, p =>
    match p.operators.head? with
    | some .Sentinel => (.ok id, p)
    | none => (.ok id, p)
    | some _ =>
      match p.popOperatorP with
      | (.error e, p) => (.error e, p)
      | (.ok id2, p) => Parser.popUntilSentinelGo fuel id2 p

/-- Embeds `Parser::push_scope`. -/
def Parser.pushScope (p : Parser) : Parser :=
  { p with operators := [], operands := [],
           operators_scopes := p.operators :: p.operators_scopes,
           operands_scopes := p.operands :: p.operands_scopes }

/-- Embeds `Parser::pop_scope`. -/
def Parser.popScope (p : Parser) : Parser :=
  let p1 :=
    match p.operators_scopes with
    | ops :: rest => { p with operators := ops, operators_scopes := rest }
    | [] => p
  match p1.operands_scopes with
  | ops :: rest => { p1 with operands := ops, operands_scopes := rest }
  | [] => p1

mutual

/-- Embeds `Parser::expr`. -/
def exprP : ℕ → Parser → Res ℕ × Parser
  | 0, p => (.error "parser out of fuel", p)
  | fuel + 1, p =>
    match termP fuel p with
    | (.error e, p) => (.error e, p)
    | (.ok id, p) =>
      match exprLoopP fuel p with
      | (.error e, p) => (.error e, p)
      | (.ok _, p) => Parser.popUntilSentinelGo (p.operators.length + 1) id p

/-- The binary-operator `while let` loop of `Parser::expr`. -/
def exprLoopP : ℕ → Parser → Res Unit × Parser
  | 0, p => (.error "parser out of fuel", p)
  | fuel + 1, p =>
    match p.peek with
    | some token =>
      match token.tok with
      | .Operator op =>
        if op.is_binary then
          let p := p.pushOperator op
          match p.nextP with
          | (.error e, p) => (.error e, p)
          | (.ok _, p) =>
            match termP fuel p with
            | (.error e, p) => (.error e, p)
            | (.ok _, p) => exprLoopP fuel p
        else (.ok (), p)
      | _ => (.ok (), p)
    | none => (.ok (), p)

/-- Embeds `Parser::term`. -/
def termP : ℕ → Parser → Res ℕ × Parser
  | 0, p => (.error "parser out of fuel", p)
  | fuel + 1, p =>
    match p.nextP with
    | (.error e, p) => (.error e, p)
    | (.ok token, p) =>
      match
        (match token.tok with
         | .Identifier name =>
           if name = "if" then condP fuel p
           else if name = "then" || name = "else" then
             (.error (p.tokenErr token (name ++ " must follow an opening if.")), p)
           else if name = "true" then
             let r := p.pushOperandP (.Value (.Bool true)); (.ok r.1, r.2)
           else if name = "false" then
             let r := p.pushOperandP (.Value (.Bool false)); (.ok r.1, r.2)
           else if p.next_is .ParenOpen then callP fuel name p
           else
             let r := p.pushOperandP (.Identifier name); (.ok r.1, r.2)
         | .Natural n =>
           let r := p.pushOperandP (.Value (.Natural (intOfU64 n))); (.ok r.1, r.2)
         | .Decimal v =>
           let r := p.pushOperandP (.Value (.Decimal v)); (.ok r.1, r.2)
         | .Roll q d =>
           let r := p.pushOperandP (.Value (.Roll (Roll.new q d))); (.ok r.1, r.2)
         | .String val =>
           let r := p.pushOperandP (.Value (.String val)); (.ok r.1, r.2)
         | .ParenOpen =>
           let p := { p with operators := .Sentinel :: p.operators }
           match exprP fuel p with
           | (.error e, p) => (.error e, p)
           | (.ok id, p) =>
             match p.expectP .ParenClose with
             | (.error e, p) => (.error e, p)
             | (.ok _, p) => (.ok id, { p with operators := p.operators.tail })
         | .ParenClose => (.error (p.tokenErr token ") unexpected."), p)
         | .BracketOpen => listP fuel p
         | .BracketClose => (.error (p.tokenErr token "] unexpected."), p)
         | .Comma => (.error (p.tokenErr token ", unexpected."), p)
         | .Operator op =>
           if op.isUnaryPre then termP fuel (p.pushOperator op)
           else if op = Operator.Sub then
             -- sub / neg can be ambiguous; sub doubles as unary prefix neg
             termP fuel (p.pushOperator .Neg)
           else (.error (p.tokenErr token (op.str ++ " unexpected.")), p))
      with
      | (.error e, p) => (.error e, p)
      | (.ok id, p) =>
        match postLoopP fuel p with
        | (.error e, p) => (.error e, p)
        | (.ok _, p) => (.ok id, p)

/-- The unary-postfix `while let` loop at the end of `Parser::term`. -/
def postLoopP : ℕ → Parser → Res Unit × Parser
  | 0, p => (.error "parser out of fuel", p)
  | fuel + 1, p =>
    match p.peek with
    | some token =>
      match token.tok with
      | .Operator op =>
        if op.isUnaryPost then
          let p := p.pushOperator op
          match p.nextP with
          | (.error e, p) => (.error e, p)
          | (.ok _, p) => postLoopP fuel p
        else (.ok (), p)
      | _ => (.ok (), p)
    | none => (.ok (), p)

/-- Embeds `Parser::conditional` (with `in_scope` inlined: push scope, run,
pop scope whatever the result, as the source's `in_scope` does). -/
def condP : ℕ → Parser → Res ℕ × Parser
  | 0, p => (.error "parser out of fuel", p)
  | fuel + 1, p =>
    let p := p.pushScope
    match exprP fuel p with
    | (.error e, p) => (.error e, p.popScope)
    | (.ok cond, p) =>
      let p := p.popScope
      match p.expectP (.Identifier "then") with
      | (.error e, p) => (.error e, p)
      | (.ok _, p) =>
        let p := p.pushScope
        match exprP fuel p with
        | (.error e, p) => (.error e, p.popScope)
        | (.ok thenb, p) =>
          let p := p.popScope
          if p.next_is (.Identifier "else") then
            match p.nextP with
            | (.error e, p) => (.error e, p)
            | (.ok _, p) =>
              let p := p.pushScope
              match exprP fuel p with
              | (.error e, p) => (.error e, p.popScope)
              | (.ok elseb, p) =>
                let p := p.popScope
                let r := p.pushOperandP (.If cond thenb (some elseb))
                (.ok r.1, r.2)
          else
            let r := p.pushOperandP (.If cond thenb none)
            (.ok r.1, r.2)

/-- The shared `while self.next_is(Comma)` argument loop of `Parser::_list`
and `Parser::_call`. -/
def commaLoopP : ℕ → List ℕ → Parser → Res (List ℕ) × Parser
  | 0, _, p => (.error "parser out of fuel", p)
  | fuel + 1, values, p =>
    if p.next_is .Comma then
      match p.expectP .Comma with
      | (.error e, p) => (.error e, p)
      | (.ok _, p) =>
        match exprP fuel p with
        | (.error e, p) => (.error e, p)
        | (.ok v, p) => commaLoopP fuel (values ++ [v]) p
    else (.ok values, p)

/-- Embeds `Parser::_list`. -/
def listInnerP : ℕ → Parser → Res Node × Parser
  | 0, p => (.error "parser out of fuel", p)
  | fuel + 1, p =>
    match
      (if !(p.next_is .BracketClose) then
        match exprP fuel p with
        | (.error e, p) => (.error e, p)
        | (.ok v, p) => commaLoopP fuel [v] p
      else (.ok [], p) : Res (List ℕ) × Parser)
    with
    | (.error e, p) => (.error e, p)
    | (.ok values, p) =>
      match p.expectP .BracketClose with
      | (.error e, p) => (.error e, p)
      | (.ok _, p) => (.ok (Node.List values), p)

/-- Embeds `Parser::list`. -/
def listP : ℕ → Parser → Res ℕ × Parser
  | 0, p => (.error "parser out of fuel", p)
  | fuel + 1, p =>
    let p := p.pushScope
    match listInnerP fuel p with
    | (.error e, p) => (.error e, p.popScope)
    | (.ok node, p) =>
      let p := p.popScope
      let r := p.pushOperandP node
      (.ok r.1, r.2)

/-- Embeds `Parser::_call`; note the node is added with `ast.add` directly, the
operand push happens in `Parser::call` after the scope is popped. -/
def callInnerP : ℕ → StrT → Parser → Res ℕ × Parser
  | 0, _, p => (.error "parser out of fuel", p)
  | fuel + 1, name, p =>
    match p.expectP .ParenOpen with
    | (.error e, p) => (.error e, p)
    | (.ok _, p) =>
      match
        (if !(p.next_is .ParenClose) then
          match exprP fuel p with
          | (.error e, p) => (.error e, p)
          | (.ok v, p) => commaLoopP fuel [v] p
        else (.ok [], p) : Res (List ℕ) × Parser)
      with
      | (.error e, p) => (.error e, p)
      | (.ok args, p) =>
        match p.expectP .ParenClose with
        | (.error e, p) => (.error e, p)
        | (.ok _, p) =>
          let r := p.ast.add (.Call name args)
          (.ok r.1, { p with ast := r.2 })

/-- Embeds `Parser::call`. -/
def callP : ℕ → StrT → Parser → Res ℕ × Parser
  | 0, _, p => (.error "parser out of fuel", p)
  | fuel + 1, name, p =>
    let p := p.pushScope
    let r := callInnerP fuel name p
    let p := r.2.popScope
    match r.1 with
    | .ok id => (.ok id, { p with operands := id :: p.operands })
    | .error e => (.error e, p)

end

/-- Fuel for the parser's mutual recursion: every cycle through the mutual
functions consumes at least one token, and the nesting depth is bounded by
the token count, so this is always sufficient for the inputs considered. -/
def parserFuel (tl : TokenList) : ℕ := tl.tokens.length * 4 + 16

/-- Embeds `Parser::parse_first`. -/
def parseFirstP (fuel : ℕ) (p : Parser) : Res Unit × Parser :=
  if p.input.isEmpty then (.ok (), p)
  else
    let p := { p with operators := .Sentinel :: p.operators }
    match exprP fuel p with
    | (.error e, p) => (.error e, p)
    | (.ok _, p) => (.ok (), p)

/-- Embeds `parse`. -/
def parse (tl : TokenList) : Res Ast :=
  let p := Parser.new tl
  match parseFirstP (parserFuel tl) p with
  | (.error e, _) => .error e
  | (.ok _, p) =>
    if p.input.isEmpty then .ok p.ast
    else
      match p.input.head? with
      | some token => .error (p.tokenErr token "Input not consumed.")
      | none => .error "Input not consumed."

/-- Expression trees: the denotation of an arena index, used to state
structural-shape properties about parsed `Ast`s. -/
inductive Tree where
  | value (v : Value)
  | ident (name : StrT)
  | listT (ts : List Tree)
  | call (name : StrT) (ts : List Tree)
  | binary (l : Tree) (op : Operator) (r : Tree)
  | unary (t : Tree) (op : Operator)
  | cond (c : Tree) (t : Tree) (e : Option Tree)

/-- Resolve an arena index into a `Tree`, fuelled by arena size (node
children always refer to earlier arena entries in parser output). -/
def Ast.treeGo (a : Ast) : ℕ → ℕ → Option Tree
  | 0, _ => none
  | fuel + 1, i =>
    match a.get i with
    | none => none
    | some (.Value v) => some (.value v)
    | some (.Identifier s) => some (.ident s)
    | some (.List vs) => (vs.mapM (a.treeGo fuel)).map .listT
    | some (.Call s vs) => (vs.mapM (a.treeGo fuel)).map (.call s)
    | some (.Binary l op r) =>
      match a.treeGo fuel l, a.treeGo fuel r with
      | some tl, some tr => some (.binary tl op tr)
      | _, _ => none
    | some (.Unary x op) => (a.treeGo fuel x).map (fun t => .unary t op)
    | some (.If c t e) =>
      match a.treeGo fuel c, a.treeGo fuel t with
      | some tc, some tt =>
        match e with
        | none => some (.cond tc tt none)
        | some ei => (a.treeGo fuel ei).map (fun te => .cond tc tt (some te))
      | _, _ => none

def Ast.tree (a : Ast) (i : ℕ) : Option Tree := a.treeGo (a.nodes.length + 1) i

/-- Tokenise-then-parse, returning the root's tree shape. -/
def parsedRoot (s : String) : Option Tree :=
  match tokenise s.data with
  | .error _ => none
  | .ok tl =>
    match parse tl with
    | .error _ => none
    | .ok ast => ast.tree ast.start

/-! ## Concrete instances and helpers used by the claim theorems -/

/-- Random stream whose raw draws are 2 then 0 (a d6 shows 3 then 1). -/
def gC1 : ℕ → ℕ := fun i => if i = 0 then 2 else 0

/-- The all-zero random stream (every die shows its minimum, 1). -/
def gZero : ℕ → ℕ := fun _ => 0

/-- The token kinds produced for a source string. -/
def toksOf (s : String) : Option (List Tok) :=
  (tokenise s.data).toOption.map (fun tl => tl.tokens.map Token.tok)

/-- The tree `Sub(Add(Neg(2), Mul(Exp(3, 4), 5)), 6)`. -/
def C6tree : Tree :=
  .binary
    (.binary (.unary (.value (.Natural 2)) .Neg) .Add
      (.binary (.binary (.value (.Natural 3)) .Exp (.value (.Natural 4))) .Mul
        (.value (.Natural 5))))
    .Sub (.value (.Natural 6))

/-- Global scope binding `a = 1`. -/
def scopeGlobalA : Scope := ⟨UMAX, [("a", .Value (.Natural 1))]⟩

/-- A child of the global scope with no bindings of its own (as created for
a function call's evaluation). -/
def scopeChildOfGlobal : Scope := ⟨0, []⟩

def cxC2 : Context := ⟨[scopeGlobalA, scopeChildOfGlobal]⟩

/-- A function body (never interpreted by `probeEv`). -/
def astX : Ast := ⟨[.Identifier "x"]⟩

/-- A zero-parameter function `f`, defined in the global scope of `cxC4`. -/
def funcF : Func := ⟨"f", astX, [], 1⟩

/-- Embeds `f` lives in the global scope (index 0, `f`'s defining scope); scope 1
is a distinct child scope from which `f` will be called. -/
def cxC4 : Context := ⟨[⟨UMAX, [("f", .Function funcF)]⟩, ⟨0, []⟩]⟩

/-- An evaluator probe: reports the parent index of the scope it is asked
to evaluate the body in. -/
def probeEv : Ast → Context → ℕ → Res Outcome × Context :=
  fun _ cx s => (.ok ⟨.Natural (((cx.scopes[s]?).map Scope.parent).getD 777 : ℕ), []⟩, cx)

def noBuiltins : String → List Value → Res Outcome :=
  fun n _ => .error ("No such function: " ++ n ++ ".")

/-- The objects map produced by binding a parameter/argument list into a
fresh scope, in order. -/
def bindObjects (pairs : List (String × Value)) : List (String × ScopeObject) :=
  pairs.foldl (fun m p => insertA m p.1 (.Value p.2)) []

/-- A sample token carrying `Tok::Roll`, for the C7 witness. -/
def rollTok : Token := Token.new (.Roll 1 6) 1 1 0 2

/-! ## Helper lemmas -/

/-- Computation rule of `Value::outcome` on an unresolved roll. -/
theorem outcome_roll_eq (g : ℕ → ℕ) (k : ℕ) (r : Roll) :
    Value.outcome g k (.Roll r) =
      (let quantity : ℕ :=
        if r.advantage ^^ r.disadvantage then max r.quantity 2 else r.quantity
       let values : List ℕ := (List.range quantity).map fun i => genRange (g (k + i)) 1 r.die
       let result : ℕ :=
        if r.advantage ^^ r.disadvantage then
          if r.advantage then values.getLast?.getD 0 else values.head?.getD 0
        else values.sum
       .ok (⟨r, values, result⟩, k + quantity)) := rfl

/-! ## Claim theorems -/

/-- C1 (code bug): for the roll 2d6 with advantage and drawn values
`[3, 1]`, the declared result is `1` — the *last drawn* value, because the
source sorts a clone into `sorted` and then reads the unsorted vector —
whereas the claim requires the maximum, `3`. -/
theorem C1_advantage_takes_last_drawn :
    Value.outcome gC1 0 (.Roll ⟨2, 6, true, false⟩) =
      .ok (⟨⟨2, 6, true, false⟩, [3, 1], 1⟩, 2) ∧
    [3, 1].foldl max 0 = 3 := ⟨rfl, rfl⟩

/-- C2 (code bug): with `a = 1` bound in the global scope and `set_variable`
called on child scope 1, the binding is created in scope 1 and the global
binding keeps the value 1 — the ancestor walk never fires because the
containment test reads the shadowed originating `scope` variable —
whereas the claim requires the global binding to be overwritten. -/
theorem C2_set_variable_ignores_ancestors :
    Context.setVariable cxC2 1 "a" (.Natural 2) =
      some ⟨[scopeGlobalA, ⟨0, [("a", ScopeObject.Value (.Natural 2))]⟩]⟩ ∧
    scopeGlobalA.objects = [("a", ScopeObject.Value (.Natural 1))] := ⟨rfl, rfl⟩

/-- C3 (code bug): `keep([2,1,3], 1)` returns `[2]`, not `[3]`: the first
pass removes the 1, but `smallest` is not reset, so the second pass keeps
the stale index 1 and removes the 3. -/
theorem C3_keep_stale_smallest :
    Outcome.keep gZero 0 ⟨.Rolls [2, 1, 3], []⟩ ⟨.Natural 1, []⟩ =
      some (.ok (⟨.Rolls [2], []⟩, 0)) ∧ ([2] : List ℕ) ≠ [3] :=
  ⟨rfl, by decide⟩

/-- C6: parsing `-2 + 3 ^ 4 * 5 - 6` yields the root tree
`Sub(Add(Neg(2), Mul(Exp(3, 4), 5)), 6)`: negation binds tighter than
addition, `^` tighter than `*`, `*` tighter than `+`/`-`, and `+`/`-`
associate left. -/
theorem C6_precedence_shape : parsedRoot "-2 + 3 ^ 4 * 5 - 6" = some C6tree := rfl

/-- C7 counterexample: after a roll token, the letter `s` is lexed as the
identifier `s`, not as a postfix operator — no `Sort` operator exists in
the code (`ROLL_SUFFIX_TOKENS` is `[Keep, Adv, DisAdv]` and the
tokeniser's special case matches only `a`, `d`, `k`). -/
theorem C7_s_is_an_identifier :
    toksOf "d6s" = some [.Roll 1 6, .Identifier "s"] ∧
    (Operator.ROLL_SUFFIX_TOKENS.find? fun op => op.chars = ['s']) = none :=
  ⟨rfl, rfl⟩

/-- C9 counterexample: the bool coercion of an unresolved roll draws the
dice but then fails (a resolved `Outcome` value cannot be read as a bool),
so it does not return the resolved outcome with an extended log. -/
theorem C9_bool_coercion_fails :
    Outcome.bool gZero 0 ⟨.Roll ⟨1, 6, false, false⟩, []⟩ =
      .error "1 cannot be interpreted as a bool." := rfl

/-- C5: a resolved roll draws `max(q, 2)` dice when exactly one of
advantage/disadvantage is set and `q` otherwise, and every drawn value is
in `[1, die]`. -/
theorem C5_resolution_count_and_bounds (g : ℕ → ℕ) (k : ℕ) (r : Roll) (hd : 1 ≤ r.die) :
    ∀ oc k2, Value.outcome g k (.Roll r) = .ok (oc, k2) →
      oc.rolls.length =
        (if r.advantage ^^ r.disadvantage then max r.quantity 2 else r.quantity) ∧
      ∀ v ∈ oc.rolls, 1 ≤ v ∧ v ≤ r.die := by
  intro oc k2 h
  rw [outcome_roll_eq] at h
  simp only [Except.ok.injEq, Prod.mk.injEq] at h
  obtain ⟨h1, -⟩ := h
  subst h1
  constructor
  · simp
  · intro v hv
    simp only [List.mem_map, List.mem_range] at hv
    obtain ⟨i, -, rfl⟩ := hv
    unfold genRange
    have := Nat.mod_lt (g (k + i)) (show 0 < r.die + 1 - 1 by omega)
    omega

/-- C5 witness: a plain 1d6 roll under the all-zero stream. -/
theorem C5_resolution_count_and_bounds_witness :
    (1 ≤ (6 : ℕ)) ∧
    Value.outcome gZero 0 (.Roll ⟨1, 6, false, false⟩) = .ok (⟨⟨1, 6, false, false⟩, [1], 1⟩, 1) ∧
    (([1] : List ℕ).length = 1 ∧ ∀ v ∈ ([1] : List ℕ), 1 ≤ v ∧ v ≤ 6) := by
  refine ⟨by decide, rfl, ?_⟩
  exact C5_resolution_count_and_bounds gZero 0 ⟨1, 6, false, false⟩ (by decide)
    ⟨⟨1, 6, false, false⟩, [1], 1⟩ 1 rfl

/-- C9 (amended): natural/decimal/rolls coercion of a roll-valued outcome
draws once — the value is replaced by the resolved outcome, exactly one
`RollOutcome` is appended to the log, and the cursor advances — and any
later coercion of the resolved value reads the stored result: it leaves
the log untouched, leaves the cursor unchanged, and does not depend on the
random stream.  Stated for `1 ≤ die`: for `die = 0` the source panics on
the empty `gen_range` range, so no resolution happens at all. -/
theorem C9_resolution_idempotent (g : ℕ → ℕ) (k : ℕ) (r : Roll) (lg : List RollOutcome)
    (_hd : 1 ≤ r.die) :
    (∃ oc k2, Value.outcome g k (.Roll r) = .ok (oc, k2) ∧
      Outcome.natural g k ⟨.Roll r, lg⟩ = .ok ((⟨.Outcome oc, lg ++ [oc]⟩, (oc.result : Int)), k2) ∧
      Outcome.decimal g k ⟨.Roll r, lg⟩ = .ok ((⟨.Outcome oc, lg ++ [oc]⟩, (oc.result : ℚ)), k2) ∧
      Outcome.rollsVal g k ⟨.Roll r, lg⟩ = .ok ((⟨.Outcome oc, lg ++ [oc]⟩, oc.rolls), k2)) ∧
    (∀ (g2 : ℕ → ℕ) (k3 : ℕ) (oc2 : RollOutcome) (lg2 : List RollOutcome),
      Outcome.natural g2 k3 ⟨.Outcome oc2, lg2⟩ = .ok ((⟨.Outcome oc2, lg2⟩, (oc2.result : Int)), k3) ∧
      Outcome.decimal g2 k3 ⟨.Outcome oc2, lg2⟩ = .ok ((⟨.Outcome oc2, lg2⟩, (oc2.result : ℚ)), k3) ∧
      Outcome.rollsVal g2 k3 ⟨.Outcome oc2, lg2⟩ = .ok ((⟨.Outcome oc2, lg2⟩, oc2.rolls), k3)) := by
  constructor
  · refine ⟨_, _, outcome_roll_eq g k r, ?_, ?_, ?_⟩ <;>
      simp [Outcome.natural, Outcome.decimal, Outcome.rollsVal, Outcome.resolveFor,
        outcome_roll_eq, Value.natural, Value.decimal, Value.rolls]
  · intro g2 k3 oc2 lg2
    refine ⟨?_, ?_, ?_⟩ <;>
      simp [Outcome.natural, Outcome.decimal, Outcome.rollsVal, Outcome.resolveFor,
        Value.natural, Value.decimal, Value.rolls]

/-- C9 witness: a plain 1d6 roll-valued outcome under the all-zero stream. -/
theorem C9_resolution_idempotent_witness :
    (1 ≤ (6 : ℕ)) ∧
    ((∃ oc k2, Value.outcome gZero 0 (.Roll ⟨1, 6, false, false⟩) = .ok (oc, k2) ∧
      Outcome.natural gZero 0 ⟨.Roll ⟨1, 6, false, false⟩, []⟩ =
        .ok ((⟨.Outcome oc, [] ++ [oc]⟩, (oc.result : Int)), k2) ∧
      Outcome.decimal gZero 0 ⟨.Roll ⟨1, 6, false, false⟩, []⟩ =
        .ok ((⟨.Outcome oc, [] ++ [oc]⟩, (oc.result : ℚ)), k2) ∧
      Outcome.rollsVal gZero 0 ⟨.Roll ⟨1, 6, false, false⟩, []⟩ =
        .ok ((⟨.Outcome oc, [] ++ [oc]⟩, oc.rolls), k2)) ∧
    (∀ (g2 : ℕ → ℕ) (k3 : ℕ) (oc2 : RollOutcome) (lg2 : List RollOutcome),
      Outcome.natural g2 k3 ⟨.Outcome oc2, lg2⟩ =
        .ok ((⟨.Outcome oc2, lg2⟩, (oc2.result : Int)), k3) ∧
      Outcome.decimal g2 k3 ⟨.Outcome oc2, lg2⟩ =
        .ok ((⟨.Outcome oc2, lg2⟩, (oc2.result : ℚ)), k3) ∧
      Outcome.rollsVal g2 k3 ⟨.Outcome oc2, lg2⟩ =
        .ok ((⟨.Outcome oc2, lg2⟩, oc2.rolls), k3))) :=
  ⟨by decide, C9_resolution_idempotent gZero 0 ⟨1, 6, false, false⟩ [] (by decide)⟩

/-- Lawfulness: `Value.beq` decides structural equality (lawfulness of the modelled
derived `PartialEq`). -/
theorem value_beq_iff (a : Value) : ∀ b : Value, Value.beq a b = true ↔ a = b := by
  induction a using Value.rec
    (motive_2 := fun xs => ∀ ys : List Value, Value.beqList xs ys = true ↔ xs = ys)
  case nil => rename_i ys; cases ys <;> simp [Value.beqList]
  case cons => rename_i head tail ih1 ih2 ys; cases ys <;> simp_all [Value.beqList, Value.beq]
  all_goals (intro b; cases b <;> simp_all [Value.beq])

/-- C8: `equal` returns `Bool` of the structural comparison of the two
values and a log that is exactly the left log followed by the right log;
it takes no randomness source at all (the source never resolves a roll
here), so comparing two unresolved `Roll` specifications compares the
specifications themselves. -/
theorem C8_equal_is_structural_and_lazy (l r : Outcome) :
    Outcome.equal l r = .ok ⟨.Bool (Value.beq l.value r.value), l.rolls ++ r.rolls⟩ ∧
    (Value.beq l.value r.value = true ↔ l.value = r.value) ∧
    ∀ ro : Roll, Outcome.equal ⟨.Roll ro, l.rolls⟩ ⟨.Roll ro, r.rolls⟩ =
      .ok ⟨.Bool true, l.rolls ++ r.rolls⟩ := by
  refine ⟨rfl, value_beq_iff l.value r.value, fun ro => ?_⟩
  have h : Value.beq (.Roll ro) (.Roll ro) = true := (value_beq_iff _ _).mpr rfl
  simp [Outcome.equal, h]

/-- C10: `div` fails exactly when one of the decimal coercions fails; a
divisor coercing to zero is not an error, and every success is a
`Decimal` value whose log concatenates the operand logs. -/
theorem C10_div_total_on_decimals (g : ℕ → ℕ) (k : ℕ) (l r : Outcome) :
    (∀ e, Outcome.decimal g k l = .error e → Outcome.div g k l r = .error e) ∧
    (∀ lo lv k1, Outcome.decimal g k l = .ok ((lo, lv), k1) →
      (∀ e, Outcome.decimal g k1 r = .error e → Outcome.div g k l r = .error e) ∧
      (∀ ro rv k2, Outcome.decimal g k1 r = .ok ((ro, rv), k2) →
        Outcome.div g k l r = .ok (⟨.Decimal (lv / rv), lo.rolls ++ ro.rolls⟩, k2))) := by
  unfold Outcome.div Outcome.arithmetic
  refine ⟨fun e he => by rw [he], fun lo lv k1 hl => ⟨fun e he => ?_, fun ro rv k2 hr => ?_⟩⟩
  · rw [hl]; dsimp only; rw [he]
  · rw [hl]; dsimp only; rw [hr]

/-- C10 witness: `1 / 0` — the divisor coerces to a zero decimal and the
division still succeeds with a `Decimal` value. -/
theorem C10_div_total_on_decimals_witness :
    Outcome.decimal gZero 0 ⟨.Natural 1, []⟩ = .ok ((⟨.Natural 1, []⟩, ((1 : Int) : ℚ)), 0) ∧
    Outcome.decimal gZero 0 ⟨.Natural 0, []⟩ = .ok ((⟨.Natural 0, []⟩, ((0 : Int) : ℚ)), 0) ∧
    Outcome.div gZero 0 ⟨.Natural 1, []⟩ ⟨.Natural 0, []⟩ =
      .ok (⟨.Decimal (((1 : Int) : ℚ) / ((0 : Int) : ℚ)), [] ++ []⟩, 0) :=
  ⟨rfl, rfl,
    ((C10_div_total_on_decimals gZero 0 ⟨.Natural 1, []⟩ ⟨.Natural 0, []⟩).2
      ⟨.Natural 1, []⟩ ((1 : Int) : ℚ) 0 rfl).2 ⟨.Natural 0, []⟩ ((0 : Int) : ℚ) 0 rfl⟩

/-- C7 (amended): in the tokeniser loop, each of the letters `a`, `d`, `k`
immediately following a just-emitted `Roll` token with no intervening
whitespace, whose following character (if any) is not alphabetic or an
underscore, is lexed as the postfix roll operator `Adv`, `DisAdv` or
`Keep` respectively (there is no `s`/`Sort` operator in the code). -/
theorem C7_adk_lex_as_roll_suffix_ops (fuel : ℕ) (input : List Char) (tokens : List Token)
    (index line col : ℕ) (c : Char) (q d : ℕ) (t : Token)
    (hc : c = 'a' ∨ c = 'd' ∨ c = 'k')
    (hlast : tokens.getLast? = some t)
    (htok : t.tok = .Roll q d)
    (hnext : ∀ c2, input.head? = some c2 → c2.isAlpha = false ∧ c2 ≠ '_') :
    tokeniseGo (fuel + 1) (c :: input) tokens index line col false =
      tokeniseGo fuel input
        (tokens ++ [Token.new
          (.Operator (if c = 'k' then .Keep else if c = 'a' then .Adv else .DisAdv))
          line col index 1])
        (index + 1) line (col + 1) false := by
  have hroll : lastIsRoll tokens = true := by
    simp [lastIsRoll, hlast, htok]
  have hop : maybeReadPostfixRollOp (c :: input) =
      .ok (1, .Operator (if c = 'k' then .Keep else if c = 'a' then .Adv else .DisAdv)) := by
    unfold maybeReadPostfixRollOp
    cases hin : input with
    | nil => rcases hc with rfl | rfl | rfl <;> rfl
    | cons c2 rest =>
      obtain ⟨h1, h2⟩ := hnext c2 (by rw [hin]; rfl)
      rcases hc with rfl | rfl | rfl <;>
        simp [h1, h2, Operator.ROLL_SUFFIX_TOKENS, Operator.chars, List.find?]
  rcases hc with rfl | rfl | rfl <;>
    simp [tokeniseGo, hroll, hop]

/-- C7 witness: the letter `a` at the end of the input, right after a
`d6` roll token, becomes the `Adv` operator token. -/
theorem C7_adk_lex_as_roll_suffix_ops_witness :
    (('a' : Char) = 'a' ∨ ('a' : Char) = 'd' ∨ ('a' : Char) = 'k') ∧
    [rollTok].getLast? = some rollTok ∧
    rollTok.tok = .Roll 1 6 ∧
    (∀ c2, ([] : List Char).head? = some c2 → c2.isAlpha = false ∧ c2 ≠ '_') ∧
    tokeniseGo 1 ['a'] [rollTok] 2 1 3 false =
      tokeniseGo 0 []
        ([rollTok] ++ [Token.new
          (.Operator (if ('a' : Char) = 'k' then .Keep
            else if ('a' : Char) = 'a' then .Adv else .DisAdv))
          1 3 2 1])
        3 1 4 false :=
  ⟨Or.inl rfl, rfl, rfl, fun _ h => by simp at h,
    C7_adk_lex_as_roll_suffix_ops 0 [] [rollTok] 2 1 3 'a' 1 6 rollTok (Or.inl rfl) rfl rfl
      (fun _ h => by simp at h)⟩

/-- Embeds `List.find?` with a constant predicate yields the head (or nothing). -/
theorem find?_const (c : Bool) (l : List ℕ) :
    (l.find? fun _ => c) = if c then l.head? else none := by
  induction l with
  | nil => cases c <;> rfl
  | cons a t ih => cases c <;> simp_all [List.find?]

/-- A scope stack is empty or starts at the scope it was taken from. -/
theorem scopeStackGo_shape (cx : Context) (fuel idx : ℕ) :
    cx.scopeStackGo fuel idx = [] ∨ ∃ rest, cx.scopeStackGo fuel idx = idx :: rest := by
  cases fuel with
  | zero => exact .inl rfl
  | succ n =>
    unfold Context.scopeStackGo
    by_cases h : idx = UMAX
    · simp [h]
    · simp only [h, if_false]
      cases cx.scopes[idx]? <;> simp

/-- Embeds `set_variable` always writes to the originating scope: the ancestor
search's containment test reads the shadowed `scope` parameter, so
`set_scope` never moves up the chain. -/
theorem setVariable_origin (cx : Context) (scope : ℕ) (name : String) (v : Value) :
    Context.setVariable cx scope name v =
      (match cx.scopes[scope]? with
       | some sc => some ⟨cx.scopes.set scope ⟨sc.parent, insertA sc.objects name (.Value v)⟩⟩
       | none => none) := by
  unfold Context.setVariable
  have hconst : (fun _idx : ℕ =>
      (match cx.scopes[scope]? with
       | some sc => containsA sc.objects name
       | none => false)) =
      (fun _ => (match cx.scopes[scope]? with
       | some sc => containsA sc.objects name
       | none => false)) := rfl
  rw [hconst, find?_const]
  rcases scopeStackGo_shape cx (cx.scopes.length + 1) scope with h | ⟨rest, h⟩ <;>
    unfold Context.scopeStack <;> rw [h] <;>
    cases (match cx.scopes[scope]? with
       | some sc => containsA sc.objects name
       | none => false) <;> simp

theorem set_append_last {α : Type} (l : List α) (x y : α) :
    (l ++ [x]).set l.length y = l ++ [y] := by
  induction l with
  | nil => rfl
  | cons a t ih => simp [List.set, ih]

theorem getElem?_append_last {α : Type} (l : List α) (x : α) :
    (l ++ [x])[l.length]? = some x := by
  induction l with
  | nil => rfl
  | cons a t ih => simp [ih]

/-- Binding parameters into a freshly pushed scope accumulates the
insertions there and touches no other scope. -/
theorem bindParams_last (pairs : List (String × Value)) (pre : List Scope) (par : ℕ)
    (objs : List (String × ScopeObject)) :
    bindParams ⟨pre ++ [⟨par, objs⟩]⟩ pre.length pairs =
      some ⟨pre ++ [⟨par, pairs.foldl (fun m p => insertA m p.1 (ScopeObject.Value p.2)) objs⟩]⟩ := by
  induction pairs generalizing objs with
  | nil => rfl
  | cons hd tl ih =>
    unfold bindParams
    rw [setVariable_origin]
    rw [getElem?_append_last]
    dsimp only
    rw [set_append_last]
    exact ih _

/-- C4 counterexample: `f` is defined in the global scope 0 but called from
scope 1; the evaluator probe reports the parent of the scope the body is
evaluated in, and it observes 1 — the caller's scope — where the claim
requires 0, the defining scope. -/
theorem C4_body_scope_parent_is_caller :
    Context.call probeEv noBuiltins cxC4 1 "f" [] = some (.ok ⟨.Natural 1, []⟩, cxC4) ∧
    Context.getFunction cxC4 1 "f" = some funcF ∧
    cxC4.scopes[0]? = some ⟨UMAX, [("f", ScopeObject.Function funcF)]⟩ ∧
    (1 : Int) ≠ 0 := ⟨rfl, rfl, rfl, by decide⟩

/-- C4 (amended): when `call` finds a user-defined function, it evaluates
the body in a freshly pushed scope whose parent is the *caller's* scope
(dynamic scoping), with the parameters bound to the arguments in order,
and an arity mismatch fails with an error naming the function and its
expected parameter count. -/
theorem C4_call_parents_callers_scope
    (ev : Ast → Context → ℕ → Res Outcome × Context)
    (builtins : String → List Value → Res Outcome)
    (cx : Context) (scope : ℕ) (name : String) (args : List Value) (f : Func)
    (hf : cx.getFunction scope name = some f) :
    (f.parameters.length ≠ args.length →
      Context.call ev builtins cx scope name args =
        some (.error ("Incorrect number of arguments: " ++ name ++ " expects "
            ++ toString f.parameters.length ++ "."),
          ⟨cx.scopes ++ [Scope.new scope]⟩)) ∧
    (f.parameters.length = args.length →
      Context.call ev builtins cx scope name args =
        some ((ev f.body ⟨cx.scopes ++ [⟨scope, bindObjects (f.parameters.zip args)⟩]⟩
            cx.scopes.length).1,
          ⟨(ev f.body ⟨cx.scopes ++ [⟨scope, bindObjects (f.parameters.zip args)⟩]⟩
              cx.scopes.length).2.scopes.dropLast⟩)) := by
  unfold Context.call
  rw [hf]
  dsimp only [Context.childScope]
  constructor
  · intro hne
    unfold checkArgumentCount
    rw [if_pos hne]
  · intro heq
    unfold checkArgumentCount
    rw [if_neg (by omega)]
    dsimp only
    have hb := bindParams_last (f.parameters.zip args) cx.scopes scope []
    unfold Scope.new
    rw [hb]
    rfl

/-- C4 witness: the zero-argument call of `f` from scope 1, with the probe
evaluator. -/
theorem C4_call_parents_callers_scope_witness :
    Context.getFunction cxC4 1 "f" = some funcF ∧
    funcF.parameters.length = ([] : List Value).length ∧
    Context.call probeEv noBuiltins cxC4 1 "f" [] =
      some ((probeEv funcF.body ⟨cxC4.scopes ++ [⟨1, bindObjects (funcF.parameters.zip [])⟩]⟩
          cxC4.scopes.length).1,
        ⟨(probeEv funcF.body ⟨cxC4.scopes ++ [⟨1, bindObjects (funcF.parameters.zip [])⟩]⟩
            cxC4.scopes.length).2.scopes.dropLast⟩) :=
  ⟨rfl, rfl,
    (C4_call_parents_callers_scope probeEv noBuiltins cxC4 1 "f" [] funcF rfl).2 rfl⟩

end Spells











